import Mathlib

/-!
Verification of the link-transformation pipeline of the AliExpress
coin-discount Telegram bot (src/main.py).

The development shallowly embeds the pipeline components of the class
AliExpressAPI and the resolution-relevant control flow of
TelegramBot.handle_message:

* generate_signature        (main.py lines 31-49)
* resolve_short_url         (main.py lines 109-119)
* extract_product_id        (main.py lines 121-163)
* get_affiliate_link        (main.py lines 51-107), split into the
  request-building half (lines 51-85) and the response-parsing half
  (lines 87-107)
* create_coin_discount_link (main.py lines 165-195)

Network effects are made explicit: the HTTP client is a parameter
net : String -> Except Unit String (for redirect resolution) or an
Except-valued response (for the API POST); Except.error models a raised
requests exception (timeout, transport failure, HTTP error status).
Python exceptions inside the embedded code are modelled with Except Unit;
a try/except block becomes a match that maps error to the fallback value.
-/

set_option maxRecDepth 4096

/-- Model of a Python value appearing as a parameter value in the signed
request: either a string or None.  Rendering a value into an f-string
(main.py line 39) stringifies None as the literal "None". -/
inductive PyVal where
  | s (v : String)
  | null
deriving DecidableEq, Repr

/-- Python f-string rendering of a parameter value (str(v)):
a string renders as itself, None renders as "None". -/
def pyRepr : PyVal → String
  | .s v => v
  | .null => "None"

/-! ## SHA-256 and HMAC-SHA256 (models of hashlib.sha256 / hmac.new)

Machine words are Nat taken modulo 2^32; byte strings are List Nat with
entries below 256.  This follows FIPS 180-4 / RFC 2104, which is the
behaviour of the Python standard library functions the source calls. -/

/-- Truncate to a 32-bit word. -/
def w32 (n : Nat) : Nat := n % 4294967296

/-- Right rotation of a 32-bit word. -/
def rotr (n x : Nat) : Nat := w32 ((x >>> n) ||| (x <<< (32 - n)))

def shaCh (x y z : Nat) : Nat := (x &&& y) ^^^ ((x ^^^ 4294967295) &&& z)

def shaMaj (x y z : Nat) : Nat := (x &&& y) ^^^ (x &&& z) ^^^ (y &&& z)

def bigSigma0 (x : Nat) : Nat := rotr 2 x ^^^ rotr 13 x ^^^ rotr 22 x

def bigSigma1 (x : Nat) : Nat := rotr 6 x ^^^ rotr 11 x ^^^ rotr 25 x

def smallSigma0 (x : Nat) : Nat := rotr 7 x ^^^ rotr 18 x ^^^ (x >>> 3)

def smallSigma1 (x : Nat) : Nat := rotr 17 x ^^^ rotr 19 x ^^^ (x >>> 10)

/-- The 64 SHA-256 round constants. -/
def shaK : List Nat :=
  [1116352408, 1899447441, 3049323471, 3921009573, 961987163,
   1508970993, 2453635748, 2870763221, 3624381080, 310598401,
   607225278, 1426881987, 1925078388, 2162078206, 2614888103,
   3248222580, 3835390401, 4022224774, 264347078, 604807628,
   770255983, 1249150122, 1555081692, 1996064986, 2554220882,
   2821834349, 2952996808, 3210313671, 3336571891, 3584528711,
   113926993, 338241895, 666307205, 773529912, 1294757372,
   1396182291, 1695183700, 1986661051, 2177026350, 2456956037,
   2730485921, 2820302411, 3259730800, 3345764771, 3516065817,
   3600352804, 4094571909, 275423344, 430227734, 506948616,
   659060556, 883997877, 958139571, 1322822218, 1537002063,
   1747873779, 1955562222, 2024104815, 2227730452, 2361852424,
   2428436474, 2756734187, 3204031479, 3329325298]

/-- The SHA-256 initial hash value. -/
def shaH0 : List Nat :=
  [1779033703, 3144134277, 1013904242, 2773480762,
   1359893119, 2600822924, 528734635, 1541459225]

/-- Big-endian byte expansion of n into k bytes. -/
def beBytes (k n : Nat) : List Nat :=
  (List.range k).map (fun i => (n >>> (8 * (k - 1 - i))) % 256)

/-- SHA-256 message padding: append 0x80, zero bytes, and the 64-bit
big-endian bit length, reaching a multiple of 64 bytes. -/
def shaPad (msg : List Nat) : List Nat :=
  let l := msg.length
  msg ++ [0x80] ++ List.replicate ((64 - (l + 9) % 64) % 64) 0 ++ beBytes 8 (l * 8)

/-- Combine four bytes into a big-endian 32-bit word. -/
def word4 (a b c d : Nat) : Nat := ((a * 256 + b) * 256 + c) * 256 + d

/-- Split a 64-byte block into sixteen 32-bit words. -/
def blockWords : List Nat → List Nat
  | a :: b :: c :: d :: rest => word4 a b c d :: blockWords rest
  | _ => []

/-- Extend sixteen message-schedule words to sixty-four. -/
def shaSchedule (ws : List Nat) : List Nat :=
  (List.range 48).foldl
    (fun l _ =>
      l ++ [w32 (smallSigma1 (l.getD (l.length - 2) 0) + l.getD (l.length - 7) 0 +
                 smallSigma0 (l.getD (l.length - 15) 0) + l.getD (l.length - 16) 0)])
    ws

/-- One round of the SHA-256 compression function. -/
def shaRound (ks ws : List Nat) (st : List Nat) (i : Nat) : List Nat :=
  match st with
  | [a, b, c, d, e, f, g, h] =>
    let t1 := w32 (h + bigSigma1 e + shaCh e f g + ks.getD i 0 + ws.getD i 0)
    let t2 := w32 (bigSigma0 a + shaMaj a b c)
    [w32 (t1 + t2), a, b, c, w32 (d + t1), e, f, g]
  | other => other

/-- Compress one 64-byte block into the running hash state. -/
def shaCompress (hs : List Nat) (block : List Nat) : List Nat :=
  let ws := shaSchedule (blockWords block)
  let fin := (List.range 64).foldl (shaRound shaK ws) hs
  (hs.zip fin).map (fun p => w32 (p.1 + p.2))

/-- Chunk a byte string into 64-byte blocks. -/
def chunks64 (l : List Nat) : List (List Nat) :=
  if h : l.isEmpty then [] else l.take 64 :: chunks64 (l.drop 64)
termination_by l.length
decreasing_by
  simp [List.isEmpty_iff] at h
  cases l with
  | nil => exact absurd rfl h
  | cons a t => simp [List.length_drop]; omega

/-- SHA-256 of a byte string, as a 32-byte string. -/
def sha256 (msg : List Nat) : List Nat :=
  (((chunks64 (shaPad msg)).foldl shaCompress shaH0).map (beBytes 4)).flatten

/-- HMAC-SHA256 (RFC 2104), as computed by hmac.new(key, msg, hashlib.sha256). -/
def hmac_sha256 (key msg : List Nat) : List Nat :=
  let k0 := if 64 < key.length then sha256 key else key
  let kp := k0 ++ List.replicate (64 - k0.length) 0
  sha256 (kp.map (· ^^^ 0x5c) ++ sha256 (kp.map (· ^^^ 0x36) ++ msg))

/-- Lowercase hexadecimal digit characters. -/
def hexDigits : List Char := "0123456789abcdef".data

/-- Two lowercase hex characters of one byte. -/
def byteHex (b : Nat) : List Char := [hexDigits.getD (b / 16) '0', hexDigits.getD (b % 16) '0']

/-- Lowercase hex rendering of a byte string (hexdigest()). -/
def bytesHexLower (bs : List Nat) : String := String.mk ((bs.map byteHex).flatten)

/-- Python str.upper() restricted to the ASCII hex alphabet actually produced. -/
def pyUpper (s : String) : String := s.map Char.toUpper

/-- UTF-8 bytes of a string (str.encode(utf-8)). -/
def strBytes (s : String) : List Nat := s.toUTF8.toList.map UInt8.toNat

/-! ## Signature engine (main.py lines 31-49) -/

/-- The key on which CPython sorted() orders the (key, value) items of the
parameter dict: tuples compare lexicographically, first by the key string,
then by the value.  With None values a tie on the key would raise TypeError
in Python; parameter mappings have pairwise distinct keys, so the tie-break
is never exercised, and it is modelled here through the rendered value. -/
def pyItemKey (p : String × PyVal) : Lex (String × String) := toLex (p.1, pyRepr p.2)

/-- sorted(params.items()) of main.py line 34: CPython sorted() is an
ascending stable sort on tuple order. -/
def sortedPairs (params : List (String × PyVal)) : List (String × PyVal) :=
  params.mergeSort (fun p q => decide (pyItemKey p ≤ pyItemKey q))

/-- The string that is signed (main.py lines 36-40): the api name, then
key plus rendered value of every sorted item, then the app secret. -/
def query_string (params : List (String × PyVal)) (api_name secret : String) : String :=
  (List.foldl (fun acc p => acc ++ p.1 ++ pyRepr p.2) api_name (sortedPairs params)) ++ secret

/-- generate_signature (main.py lines 31-49): uppercase hex HMAC-SHA256 of
the query string, keyed by the UTF-8 bytes of the app secret. -/
def generate_signature (app_secret : String) (params : List (String × PyVal))
    (api_name : String) : String :=
  pyUpper (bytesHexLower (hmac_sha256 (strBytes app_secret)
    (strBytes (query_string params api_name app_secret))))

/-! ## Spec-side signature (section 4.1 of the spec), for claim C1 -/

/-- Ascending sort of the parameters by key alone, as the spec words it
(sort parameters by key ascending, byte/lexicographic order). -/
def sort_by_key (params : List (String × PyVal)) : List (String × PyVal) :=
  params.mergeSort (fun p q => decide (p.1 ≤ q.1))

/-- Concatenation of key plus rendered value over a list of pairs, in order. -/
def concatPairs (l : List (String × PyVal)) : String :=
  l.foldr (fun p acc => p.1 ++ pyRepr p.2 ++ acc) ""

/-- Modelled from the spec wording of section 4.1: sort by key ascending,
concatenate key+value in that order, wrap with the method name in front and
the shared secret at the end, and take the uppercase hex HMAC-SHA256 digest
keyed by the secret. -/
def spec_signature (params : List (String × PyVal)) (api_name secret : String) : String :=
  pyUpper (bytesHexLower (hmac_sha256 (strBytes secret)
    (strBytes (api_name ++ concatPairs (sort_by_key params) ++ secret))))

/-! ## Claim C1: the signature engine matches the spec algorithm -/

/-- The for loop of main.py lines 38-39 appends key plus value of every
item in order to the accumulator. -/
theorem foldl_append_concatPairs (l : List (String × PyVal)) (init : String) :
    List.foldl (fun acc p => acc ++ p.1 ++ pyRepr p.2) init l = init ++ concatPairs l := by
  induction l generalizing init with
  | nil => simp [concatPairs]
  | cons p t ih =>
    simp only [List.foldl_cons, concatPairs, List.foldr_cons, ih]
    simp [concatPairs, String.append_assoc]

/-- Two permutations of one another with equal, duplicate-free images under
f are equal. -/
theorem eq_of_perm_of_map_eq {α β : Type} (f : α → β) :
    ∀ {l₁ l₂ : List α}, l₁.Perm l₂ → l₁.map f = l₂.map f → (l₁.map f).Nodup → l₁ = l₂ := by
  intro l₁
  induction l₁ with
  | nil =>
    intro l₂ hp _ _
    exact (hp.nil_eq).symm ▸ rfl
  | cons a t ih =>
    intro l₂ hp hm hn
    cases l₂ with
    | nil => exact absurd hp.symm.nil_eq (by simp)
    | cons b t₂ =>
      simp only [List.map_cons, List.cons.injEq] at hm
      have hab : a = b := by
        have hmem : a ∈ b :: t₂ := hp.mem_iff.mp (List.mem_cons_self a t)
        rcases List.mem_cons.mp hmem with h | h
        · exact h
        · exfalso
          have : f a ∈ t₂.map f := List.mem_map_of_mem f h
          rw [← hm.2] at this
          simp only [List.map_cons, List.nodup_cons] at hn
          exact hn.1 (hm.1 ▸ this)
      subst hab
      have ht : t.Perm t₂ := hp.cons_inv
      have : t = t₂ := by
        apply ih ht hm.2
        simp only [List.map_cons, List.nodup_cons] at hn
        exact hn.2
      rw [this]

/-- Under pairwise-distinct keys, sorting the items in CPython tuple order
(main.py line 34) agrees with sorting by key alone (the spec wording). -/
theorem sortedPairs_eq_sort_by_key (params : List (String × PyVal))
    (h : (params.map Prod.fst).Nodup) : sortedPairs params = sort_by_key params := by
  have pA : (sortedPairs params).Perm params := List.mergeSort_perm params _
  have pB : (sort_by_key params).Perm params := List.mergeSort_perm params _
  have perm : (sortedPairs params).Perm (sort_by_key params) := pA.trans pB.symm
  have sA : List.Pairwise (fun p q : String × PyVal => p.1 ≤ q.1) (sortedPairs params) := by
    have := @List.sorted_mergeSort (String × PyVal)
      (fun p q => decide (pyItemKey p ≤ pyItemKey q))
      (fun a b c hab hbc => by
        simp only [decide_eq_true_eq] at *
        exact le_trans hab hbc)
      (fun a b => by
        simp only [Bool.or_eq_true, decide_eq_true_eq]
        exact le_total _ _)
      params
    refine this.imp ?_
    intro p q hpq
    simp only [decide_eq_true_eq, pyItemKey] at hpq
    rcases (Prod.Lex.le_iff _ _).mp hpq with h | h
    · exact le_of_lt h
    · exact le_of_eq h.1
  have sB : List.Pairwise (fun p q : String × PyVal => p.1 ≤ q.1) (sort_by_key params) := by
    have := @List.sorted_mergeSort (String × PyVal)
      (fun p q => decide (p.1 ≤ q.1))
      (fun a b c hab hbc => by
        simp only [decide_eq_true_eq] at *
        exact le_trans hab hbc)
      (fun a b => by
        simp only [Bool.or_eq_true, decide_eq_true_eq]
        exact le_total _ _)
      params
    refine this.imp ?_
    intro p q hpq
    simpa using hpq
  have keysA : List.Sorted (· ≤ ·) ((sortedPairs params).map Prod.fst) := by
    rw [List.Sorted, List.pairwise_map]
    exact sA
  have keysB : List.Sorted (· ≤ ·) ((sort_by_key params).map Prod.fst) := by
    rw [List.Sorted, List.pairwise_map]
    exact sB
  have keysEq : (sortedPairs params).map Prod.fst = (sort_by_key params).map Prod.fst :=
    List.eq_of_perm_of_sorted (perm.map Prod.fst) keysA keysB
  have nodupA : ((sortedPairs params).map Prod.fst).Nodup :=
    ((pA.map Prod.fst).nodup_iff).mpr h
  exact eq_of_perm_of_map_eq Prod.fst perm keysEq nodupA

/-- C1.  For every parameter mapping (pairwise distinct keys), method name
and secret, generate_signature sorts the parameters by key ascending,
concatenates key+value in that order into one string carrying the method
name in front and the shared secret at the end, and returns the uppercase
hexadecimal HMAC-SHA256 digest of that string keyed by the secret — the
spec-side algorithm spec_signature. -/
theorem generate_signature_matches_spec (params : List (String × PyVal))
    (api_name secret : String) (h : (params.map Prod.fst).Nodup) :
    generate_signature secret params api_name = spec_signature params api_name secret := by
  unfold generate_signature spec_signature
  have hq : query_string params api_name secret =
      api_name ++ concatPairs (sort_by_key params) ++ secret := by
    unfold query_string
    rw [foldl_append_concatPairs, sortedPairs_eq_sort_by_key params h]
  rw [hq]

/-- Witness for C1 at a concrete mapping. -/
theorem generate_signature_matches_spec_witness :
    generate_signature "secret"
        [("timestamp", PyVal.s "1700000000000"), ("app_key", PyVal.s "k1")]
        "aliexpress.affiliate.link.generate" =
      spec_signature
        [("timestamp", PyVal.s "1700000000000"), ("app_key", PyVal.s "k1")]
        "aliexpress.affiliate.link.generate" "secret" :=
  generate_signature_matches_spec _ _ _ (by decide)

/-! ## URL resolver (main.py lines 109-119)

The HTTP client requests.head(url, allow_redirects=True).url is modelled
as net : String -> Except Unit String; Except.error is a raised requests
exception (timeout or transport failure). -/

/-- Python substring membership (needle in hay) on character lists. -/
def containsSeq (needle : List Char) : List Char → Bool
  | [] => needle.isEmpty
  | c :: rest => needle.isPrefixOf (c :: rest) || containsSeq needle rest

/-- Python substring membership on strings. -/
def strContains (hay needle : String) : Bool := containsSeq needle.data hay.data

/-- The short-link domain markers of main.py line 113. -/
def has_short_marker (url : String) : Bool :=
  strContains url "s.click.aliexpress.com" || strContains url "bit.ly" ||
    strContains url "tinyurl.com"

/-- resolve_short_url (main.py lines 109-119): when the URL carries a
short-link marker, follow redirects through the network and return the
final URL; the try/except returns the original URL on any raised
exception; URLs without a marker are returned unchanged. -/
def resolve_short_url (net : String → Except Unit String) (url : String) : String :=
  if has_short_marker url then
    match net url with
    | .ok r => r
    | .error _ => url
  else url


/-! ## Product-ID extractor (main.py lines 121-163)

Each regular expression of the patterns list has one of four shapes, each
implemented directly with Python re.search semantics (leftmost match; a
greedy digit run; the lazy dot-star skips the fewest characters, never a
newline).  The matcher functions return the text of capture group 1. -/

/-- Matcher for a pattern literal-(\d+)-literal (also with an empty second
literal): at this position the first literal, then one or more digits
(greedy), then the second literal.  Backtracking the greedy run is futile
because the second literal never starts with a digit. -/
def litDigitsLit (pre post s : List Char) : Option (List Char) :=
  if pre.isPrefixOf s then
    if !((s.drop pre.length).takeWhile Char.isDigit).isEmpty &&
        post.isPrefixOf
          ((s.drop pre.length).drop ((s.drop pre.length).takeWhile Char.isDigit).length) then
      some ((s.drop pre.length).takeWhile Char.isDigit)
    else none
  else none

/-- The tail of a literal-[=:]-(\d+) pattern after its literal: one
separator character '=' or ':', then one or more digits. -/
def sepDigitsTail : List Char → Option (List Char)
  | [] => none
  | c :: rest =>
    if c = '=' || c = ':' then
      if !(rest.takeWhile Char.isDigit).isEmpty then some (rest.takeWhile Char.isDigit)
      else none
    else none

/-- Matcher for literal-[=:]-(\d+). -/
def litSepDigits (pre s : List Char) : Option (List Char) :=
  if pre.isPrefixOf s then sepDigitsTail (s.drop pre.length) else none

/-- The lazy tail of literal-.*?-(\d{10,}): skip the fewest characters
(none of them a newline) until a run of at least ten digits starts; the
greedy group captures the whole run. -/
def lazyRun10 : List Char → Option (List Char)
  | [] => none
  | c :: rest =>
    if 10 ≤ ((c :: rest).takeWhile Char.isDigit).length then
      some ((c :: rest).takeWhile Char.isDigit)
    else if c = '\n' then none
    else lazyRun10 rest

/-- Matcher for literal-.*?-(\d{10,}). -/
def litLazyRun (pre s : List Char) : Option (List Char) :=
  if pre.isPrefixOf s then lazyRun10 (s.drop pre.length) else none

/-- Matcher for the bare (\d{10,}) pattern: at least ten digits here. -/
def longRun10 (s : List Char) : Option (List Char) :=
  if 10 ≤ (s.takeWhile Char.isDigit).length then some (s.takeWhile Char.isDigit) else none

/-- re.search: try the matcher at every position, leftmost first. -/
def reSearch (m : List Char → Option (List Char)) : List Char → Option (List Char)
  | [] => m []
  | c :: rest =>
    match m (c :: rest) with
    | some g => some g
    | none => reSearch m rest

/-- The ordered pattern list of main.py lines 128-145. -/
def patterns : List (List Char → Option (List Char)) :=
  [litDigitsLit "/item/".data ".html".data,
   litDigitsLit "productIds=".data [],
   litDigitsLit "/".data ".html".data,
   litDigitsLit "product/".data [],
   litDigitsLit "m.aliexpress.com/item/".data [],
   litLazyRun "m.aliexpress.com".data,
   litDigitsLit "aliexpress.com/item/".data [],
   litLazyRun "aliexpress.com".data,
   litSepDigits "productId".data,
   litSepDigits "itemId".data,
   longRun10]

/-- One iteration of the for loop of main.py lines 147-153: a pattern whose
search matched contributes its group only when it has at least ten digits;
otherwise the loop moves on to the next pattern. -/
def candidateOf (m : List Char → Option (List Char)) (u : List Char) : Option (List Char) :=
  match reSearch m u with
  | some g => if 10 ≤ g.length then some g else none
  | none => none

/-- The first pattern of the list that yields a plausible (ten-plus-digit)
product id on u (main.py lines 147-153 and 156-161). -/
def firstValid : List (List Char → Option (List Char)) → List Char → Option (List Char)
  | [], _ => none
  | m :: ms, u =>
    match candidateOf m u with
    | some g => some g
    | none => firstValid ms u

/-- extract_product_id (main.py lines 121-163): resolve the URL once, run
the pattern loop against the resolved URL, and on failure run the same
loop against the original URL before returning None. -/
def extract_product_id (net : String → Except Unit String) (url : String) : Option String :=
  match firstValid patterns (resolve_short_url net url).data with
  | some g => some (String.mk g)
  | none => (firstValid patterns url.data).map String.mk

/-! ## Claim C2: every extracted id is a digit string of length at least 10 -/

/-- Every capture any matcher can return is the maximal digit run starting
at some suffix of the searched text. -/
def MatchCapture (m : List Char → Option (List Char)) : Prop :=
  ∀ s g, m s = some g → ∃ t, t <:+ s ∧ g = t.takeWhile Char.isDigit

theorem litDigitsLit_capture (pre post : List Char) : MatchCapture (litDigitsLit pre post) := by
  intro s g h
  unfold litDigitsLit at h
  split at h
  · split at h
    · exact ⟨s.drop pre.length, List.drop_suffix _ _, (Option.some.inj h).symm⟩
    · exact absurd h (by simp)
  · exact absurd h (by simp)

theorem sepDigitsTail_capture : ∀ s g, sepDigitsTail s = some g →
    ∃ t, t <:+ s ∧ g = t.takeWhile Char.isDigit := by
  intro s g h
  cases s with
  | nil => simp [sepDigitsTail] at h
  | cons c rest =>
    simp only [sepDigitsTail] at h
    split at h
    · split at h
      · refine ⟨rest, ?_, (Option.some.inj h).symm⟩
        exact List.suffix_cons_iff.mpr (Or.inr (List.suffix_refl _))
      · exact absurd h (by simp)
    · exact absurd h (by simp)

theorem litSepDigits_capture (pre : List Char) : MatchCapture (litSepDigits pre) := by
  intro s g h
  unfold litSepDigits at h
  split at h
  · obtain ⟨t, ht, hg⟩ := sepDigitsTail_capture _ _ h
    exact ⟨t, ht.trans (List.drop_suffix _ _), hg⟩
  · exact absurd h (by simp)

theorem lazyRun10_capture : ∀ s g, lazyRun10 s = some g →
    ∃ t, t <:+ s ∧ g = t.takeWhile Char.isDigit := by
  intro s
  induction s with
  | nil => intro g h; simp [lazyRun10] at h
  | cons c rest ih =>
    intro g h
    unfold lazyRun10 at h
    split at h
    · exact ⟨c :: rest, List.suffix_refl _, (Option.some.inj h).symm⟩
    · split at h
      · exact absurd h (by simp)
      · obtain ⟨t, ht, hg⟩ := ih g h
        exact ⟨t, List.suffix_cons_iff.mpr (Or.inr ht), hg⟩

theorem litLazyRun_capture (pre : List Char) : MatchCapture (litLazyRun pre) := by
  intro s g h
  unfold litLazyRun at h
  split at h
  · obtain ⟨t, ht, hg⟩ := lazyRun10_capture _ _ h
    exact ⟨t, ht.trans (List.drop_suffix _ _), hg⟩
  · exact absurd h (by simp)

theorem longRun10_capture : MatchCapture longRun10 := by
  intro s g h
  unfold longRun10 at h
  split at h
  · exact ⟨s, List.suffix_refl _, (Option.some.inj h).symm⟩
  · exact absurd h (by simp)

theorem reSearch_capture {m : List Char → Option (List Char)} (hm : MatchCapture m) :
    ∀ u g, reSearch m u = some g → ∃ t, t <:+ u ∧ g = t.takeWhile Char.isDigit := by
  intro u
  induction u with
  | nil => intro g h; exact hm [] g h
  | cons c rest ih =>
    intro g h
    cases hmc : m (c :: rest) with
    | some g0 =>
      simp only [reSearch, hmc] at h
      obtain ⟨t, ht, hg⟩ := hm _ _ hmc
      exact ⟨t, ht, (Option.some.inj h) ▸ hg⟩
    | none =>
      simp only [reSearch, hmc] at h
      obtain ⟨t, ht, hg⟩ := ih g h
      exact ⟨t, List.suffix_cons_iff.mpr (Or.inr ht), hg⟩

theorem patterns_capture : ∀ m ∈ patterns, MatchCapture m := by
  intro m hm
  simp only [patterns, List.mem_cons, List.not_mem_nil, or_false] at hm
  rcases hm with h|h|h|h|h|h|h|h|h|h|h <;> subst h
  · exact litDigitsLit_capture _ _
  · exact litDigitsLit_capture _ _
  · exact litDigitsLit_capture _ _
  · exact litDigitsLit_capture _ _
  · exact litDigitsLit_capture _ _
  · exact litLazyRun_capture _
  · exact litDigitsLit_capture _ _
  · exact litLazyRun_capture _
  · exact litSepDigits_capture _
  · exact litSepDigits_capture _
  · exact longRun10_capture

theorem candidateOf_capture {m : List Char → Option (List Char)} {u g : List Char}
    (hm : MatchCapture m) (h : candidateOf m u = some g) :
    10 ≤ g.length ∧ ∃ t, t <:+ u ∧ g = t.takeWhile Char.isDigit := by
  cases hs : reSearch m u with
  | some g1 =>
    simp only [candidateOf, hs] at h
    split at h
    next hcond =>
      obtain ⟨t, ht, hg⟩ := reSearch_capture hm u g1 hs
      cases Option.some.inj h
      exact ⟨hcond, t, ht, hg⟩
    next => exact absurd h (by simp)
  | none => simp [candidateOf, hs] at h

theorem firstValid_capture : ∀ (ms : List (List Char → Option (List Char))) (u g : List Char),
    (∀ m ∈ ms, MatchCapture m) → firstValid ms u = some g →
    10 ≤ g.length ∧ ∃ t, t <:+ u ∧ g = t.takeWhile Char.isDigit := by
  intro ms
  induction ms with
  | nil => intro u g _ h; simp [firstValid] at h
  | cons m ms ih =>
    intro u g hall h
    cases hc : candidateOf m u with
    | some g0 =>
      simp only [firstValid, hc] at h
      exact (Option.some.inj h) ▸ candidateOf_capture (hall m (List.mem_cons_self m ms)) hc
    | none =>
      simp only [firstValid, hc] at h
      exact ih u g (fun m' hm' => hall m' (List.mem_cons_of_mem m hm')) h

/-- No suffix of the text starts with a run of ten or more digits; this is
exactly the statement that every maximal numeric substring is shorter than
ten characters. -/
def noLongDigitRun : List Char → Bool
  | [] => true
  | c :: rest =>
    decide (((c :: rest).takeWhile Char.isDigit).length < 10) && noLongDigitRun rest

theorem noLongDigitRun_suffix {l : List Char} (h : noLongDigitRun l = true) :
    ∀ t, t <:+ l → (t.takeWhile Char.isDigit).length < 10 := by
  induction l with
  | nil =>
    intro t ht
    rw [List.suffix_nil.mp ht]
    simp
  | cons c rest ih =>
    intro t ht
    unfold noLongDigitRun at h
    rw [Bool.and_eq_true, decide_eq_true_eq] at h
    rcases List.suffix_cons_iff.mp ht with he | he
    · rw [he]; exact h.1
    · exact ih h.2 t he

theorem extract_some_digits (net : String → Except Unit String) (url pid : String)
    (h : extract_product_id net url = some pid) :
    pid.data.all Char.isDigit = true ∧ 10 ≤ pid.length := by
  have main : ∀ u g, firstValid patterns u = some g →
      (String.mk g).data.all Char.isDigit = true ∧ 10 ≤ (String.mk g).length := by
    intro u g hg
    obtain ⟨hlen, t, _, hrun⟩ := firstValid_capture patterns u g patterns_capture hg
    constructor
    · rw [List.all_eq_true]
      intro x hx
      exact List.mem_takeWhile_imp (hrun ▸ hx)
    · exact hlen
  cases h1 : firstValid patterns (resolve_short_url net url).data with
  | some g =>
    simp only [extract_product_id, h1] at h
    exact (Option.some.inj h) ▸ main _ g h1
  | none =>
    simp only [extract_product_id, h1, Option.map_eq_some'] at h
    obtain ⟨g, hg, hpid⟩ := h
    exact hpid ▸ main _ g hg

theorem extract_none_of_no_long_run (net : String → Except Unit String) (url : String)
    (hm : has_short_marker url = false) (hn : noLongDigitRun url.data = true) :
    extract_product_id net url = none := by
  have hres : resolve_short_url net url = url := by
    unfold resolve_short_url
    rw [hm]
    simp
  have hfv : firstValid patterns url.data = none := by
    cases h1 : firstValid patterns url.data with
    | none => rfl
    | some g =>
      obtain ⟨hlen, t, ht, hrun⟩ := firstValid_capture patterns url.data g patterns_capture h1
      have := noLongDigitRun_suffix hn t ht
      rw [← hrun] at this
      omega
  simp only [extract_product_id, hres, hfv, Option.map_none']

/-- C2.  Whenever extract_product_id returns a value it is a string of
decimal digits of length at least ten, for every network behaviour and
every input URL; a URL that carries no short-link marker (so no redirect
resolution takes place) and in which every numeric substring is shorter
than ten digits yields None; in particular the URL whose only numeric
substring is the five-digit string 12345 yields None. -/
theorem extract_product_id_digits_floor :
    (∀ net url pid, extract_product_id net url = some pid →
      pid.data.all Char.isDigit = true ∧ 10 ≤ pid.length)
    ∧ (∀ net url, has_short_marker url = false → noLongDigitRun url.data = true →
        extract_product_id net url = none)
    ∧ (∀ net, extract_product_id net "https://example.com/ref12345.html" = none) :=
  ⟨extract_some_digits,
   extract_none_of_no_long_run,
   fun net => extract_none_of_no_long_run net _ (by decide) (by decide)⟩

/-- Witness for C2: the first clause applied at a URL with a sixteen-digit
id, the third clause at the URL whose only numeric substring is 12345. -/
theorem extract_product_id_digits_floor_witness :
    ("1005004633663909".data.all Char.isDigit = true ∧ 10 ≤ "1005004633663909".length)
    ∧ extract_product_id (fun _ => .error ()) "https://example.com/ref12345.html" = none :=
  ⟨extract_product_id_digits_floor.1 (fun _ => .error ())
      "https://www.aliexpress.com/item/1005004633663909.html" "1005004633663909" (by decide),
   extract_product_id_digits_floor.2.2 (fun _ => .error ())⟩

/-! ## Claim C6: fallback to the original URL -/

/-- C6.  When the ordered rule set produces no plausible id on the resolved
URL, extract_product_id applies the same ordered rule set to the original
unresolved URL before returning None, so an id encoded only in the original
URL is still found when resolution failed fail-open or resolved to a page
without an id. -/
theorem extract_product_id_retries_original (net : String → Except Unit String) (url : String)
    (h : firstValid patterns (resolve_short_url net url).data = none) :
    extract_product_id net url = (firstValid patterns url.data).map String.mk := by
  simp only [extract_product_id, h]

/-- Witness for C6: the resolver lands on a page without an id, and the id
carried by the original short link is still extracted. -/
theorem extract_product_id_retries_original_witness :
    extract_product_id (fun _ => .ok "https://example.com/landing")
        "https://bit.ly/1005004633663909" =
      (firstValid patterns ("https://bit.ly/1005004633663909").data).map String.mk :=
  extract_product_id_retries_original _ _ (by decide)

/-! ## Claim C7: the resolver never raises and fails open -/

/-- C7.  resolve_short_url returns its input unchanged for every URL
without a short-link marker (for every network, so no network request can
influence the result), returns the original URL unchanged whenever the
redirect lookup raises (timeout or transport error), and in every case
either returns the input URL or the redirect target delivered by the
network — the embedded try/except leaves no uncaught exception. -/
theorem resolve_short_url_fail_open :
    (∀ (net : String → Except Unit String) url, has_short_marker url = false →
        resolve_short_url net url = url)
    ∧ (∀ (net : String → Except Unit String) url e, net url = .error e →
        resolve_short_url net url = url)
    ∧ (∀ (net : String → Except Unit String) url,
        resolve_short_url net url = url ∨
          ∃ r, net url = .ok r ∧ resolve_short_url net url = r) := by
  refine ⟨?_, ?_, ?_⟩
  · intro net url hm
    unfold resolve_short_url
    rw [hm]
    simp
  · intro net url e he
    unfold resolve_short_url
    split
    · rw [he]
    · rfl
  · intro net url
    by_cases hm : has_short_marker url = true
    · cases hr : net url with
      | ok r =>
        right
        refine ⟨r, rfl, ?_⟩
        simp only [resolve_short_url, hm, if_true, hr]
      | error e =>
        left
        simp only [resolve_short_url, hm, if_true, hr]
    · left
      simp [resolve_short_url, hm]

/-- Witness for C7: a marker-free URL is returned unchanged under a network
that would redirect it elsewhere, and a marker URL under a failing network
is returned unchanged. -/
theorem resolve_short_url_fail_open_witness :
    resolve_short_url (fun _ => .ok "https://other.example/")
        "https://www.aliexpress.com/item/1005004633663909.html" =
      "https://www.aliexpress.com/item/1005004633663909.html"
    ∧ resolve_short_url (fun _ => .error ()) "https://bit.ly/abc" = "https://bit.ly/abc" :=
  ⟨resolve_short_url_fail_open.1 _ _ (by decide),
   resolve_short_url_fail_open.2.1 _ _ () rfl⟩

/-! ## Affiliate-link client, request-building half (main.py lines 51-85) -/

/-- The read-only credentials held by the AliExpressAPI object. -/
structure ApiConfig where
  app_key : String
  app_secret : String
  tracking_id : String
deriving Repr

/-- The method name of the link-generation endpoint (main.py line 69). -/
def api_link_name : String := "aliexpress.affiliate.link.generate"

/-- The canonical product URL built from the extracted id
(main.py line 65). -/
def clean_url (product_id : String) : String :=
  "https://www.aliexpress.com/item/" ++ product_id ++ ".html"

/-- The parameter dict of main.py lines 71-81, in insertion order. -/
def build_link_params (cfg : ApiConfig) (promotion_link_type timestamp product_id : String) :
    List (String × PyVal) :=
  [("app_key", PyVal.s cfg.app_key),
   ("method", PyVal.s api_link_name),
   ("sign_method", PyVal.s "sha256"),
   ("timestamp", PyVal.s timestamp),
   ("v", PyVal.s "2.0"),
   ("format", PyVal.s "json"),
   ("promotion_link_type", PyVal.s promotion_link_type),
   ("source_values", PyVal.s (clean_url product_id)),
   ("tracking_id", PyVal.s cfg.tracking_id)]

/-- The dict after the sign entry is added (main.py lines 84-85): Python
dict assignment of a fresh key appends it in insertion order. -/
def signed_link_params (cfg : ApiConfig) (promotion_link_type timestamp product_id : String) :
    List (String × PyVal) :=
  build_link_params cfg promotion_link_type timestamp product_id ++
    [("sign", PyVal.s (generate_signature cfg.app_secret
        (build_link_params cfg promotion_link_type timestamp product_id) api_link_name))]

/-- The request-building half of get_affiliate_link (main.py lines 51-85):
resolve the incoming URL, extract the product id from the resolved URL
(which internally resolves once more), and either give up (None) or build
the signed parameter mapping that is sent in the POST body. -/
def get_affiliate_link_request (cfg : ApiConfig) (net : String → Except Unit String)
    (promotion_link_type timestamp product_url : String) : Option (List (String × PyVal)) :=
  match extract_product_id net (resolve_short_url net product_url) with
  | none => none
  | some product_id => some (signed_link_params cfg promotion_link_type timestamp product_id)

/-! ## Claim C4: the signed request carries the canonical product URL -/

/-- C4.  Whenever a product id is extracted, the source_values entry of the
signed request is exactly the canonical template
https://www.aliexpress.com/item/(id).html, and is never the original input
URL unless that input already equals the canonical template. -/
theorem source_values_canonical (cfg : ApiConfig) (net : String → Except Unit String)
    (plt ts url pid : String)
    (h : extract_product_id net (resolve_short_url net url) = some pid) :
    get_affiliate_link_request cfg net plt ts url = some (signed_link_params cfg plt ts pid)
    ∧ List.lookup "source_values" (signed_link_params cfg plt ts pid) =
        some (PyVal.s ("https://www.aliexpress.com/item/" ++ pid ++ ".html"))
    ∧ ("https://www.aliexpress.com/item/" ++ pid ++ ".html" ≠ url →
        List.lookup "source_values" (signed_link_params cfg plt ts pid) ≠ some (PyVal.s url)) := by
  have hlook : List.lookup "source_values" (signed_link_params cfg plt ts pid) =
      some (PyVal.s ("https://www.aliexpress.com/item/" ++ pid ++ ".html")) := rfl
  refine ⟨?_, hlook, ?_⟩
  · simp only [get_affiliate_link_request, h]
  · intro hne hcontra
    rw [hlook] at hcontra
    exact hne (by injection (Option.some.inj hcontra) with hv)

/-- Witness for C4 at a concrete configuration and URL. -/
theorem source_values_canonical_witness :
    get_affiliate_link_request ⟨"key1", "secret1", "track1"⟩ (fun _ => .ok "https://www.aliexpress.com/item/1005004633663909.html")
        "2" "0" "https://s.click.aliexpress.com/e/_abc" =
      some (signed_link_params ⟨"key1", "secret1", "track1"⟩ "2" "0" "1005004633663909")
    ∧ List.lookup "source_values"
        (signed_link_params ⟨"key1", "secret1", "track1"⟩ "2" "0" "1005004633663909") =
      some (PyVal.s "https://www.aliexpress.com/item/1005004633663909.html")
    ∧ ("https://www.aliexpress.com/item/1005004633663909.html" ≠
          "https://s.click.aliexpress.com/e/_abc" →
        List.lookup "source_values"
            (signed_link_params ⟨"key1", "secret1", "track1"⟩ "2" "0" "1005004633663909") ≠
          some (PyVal.s "https://s.click.aliexpress.com/e/_abc")) := by
  have h : extract_product_id
      (fun _ => .ok "https://www.aliexpress.com/item/1005004633663909.html")
      (resolve_short_url (fun _ => .ok "https://www.aliexpress.com/item/1005004633663909.html")
        "https://s.click.aliexpress.com/e/_abc") =
      some "1005004633663909" := by decide
  exact source_values_canonical _ _ _ _ _ _ h

/-! ## Affiliate-link client, response-parsing half (main.py lines 87-107)

The JSON value returned by response.json() is modelled by JVal (numbers as
integers; the numeric payloads are irrelevant to the parsing logic).  The
Python operations used by the parsing code are modelled with their
exception behaviour: Except.error is a raised TypeError/KeyError/IndexError. -/

inductive JVal where
  | null
  | bool (b : Bool)
  | num (n : Int)
  | str (s : String)
  | arr (elems : List JVal)
  | obj (fields : List (String × JVal))

mutual

/-- Structural equality of JSON values, modelling the Python == used by
the list membership test. -/
def jEq : JVal → JVal → Bool
  | .null, .null => true
  | .bool a, .bool b => a == b
  | .num a, .num b => a == b
  | .str a, .str b => a == b
  | .arr a, .arr b => jEqList a b
  | .obj a, .obj b => jEqFields a b
  | _, _ => false

def jEqList : List JVal → List JVal → Bool
  | [], [] => true
  | a :: as2, b :: bs => jEq a b && jEqList as2 bs
  | _, _ => false

def jEqFields : List (String × JVal) → List (String × JVal) → Bool
  | [], [] => true
  | a :: as2, b :: bs => (a.1 == b.1 && jEq a.2 b.2) && jEqFields as2 bs
  | _, _ => false

end

instance : BEq JVal := ⟨jEq⟩

/-- First value of a key in a JSON object (JSON objects from json loads
have string keys; duplicate keys keep the last in CPython, but no response
shape relevant here has duplicates). -/
def jLookup (fields : List (String × JVal)) (k : String) : Option JVal :=
  List.lookup k fields

/-- Python membership test (k in v): key test on a dict, element test on a
list, substring test on a str; TypeError on other operands. -/
def pyContains (v : JVal) (k : String) : Except Unit Bool :=
  match v with
  | .obj fields => .ok (jLookup fields k).isSome
  | .arr elems => .ok (elems.contains (JVal.str k))
  | .str s => .ok (strContains s k)
  | _ => .error ()

/-- Python subscript v[k] with a string key: dict lookup (KeyError when
missing), TypeError on any other operand. -/
def pyGetKey (v : JVal) (k : String) : Except Unit JVal :=
  match v with
  | .obj fields =>
    match jLookup fields k with
    | some x => .ok x
    | none => .error ()
  | _ => .error ()

/-- Python subscript v[0]: list indexing (IndexError when empty), one-char
string, KeyError on a dict without an integer key (JSON objects only have
string keys), TypeError otherwise. -/
def pyGetIdx0 (v : JVal) : Except Unit JVal :=
  match v with
  | .arr elems =>
    match elems with
    | x :: _ => .ok x
    | [] => .error ()
  | .str s =>
    match s.data with
    | c :: _ => .ok (JVal.str (String.mk [c]))
    | [] => .error ()
  | _ => .error ()

/-- Python truthiness of a JSON value. -/
def pyTruthy : JVal → Bool
  | .null => false
  | .bool b => b
  | .num n => n != 0
  | .str s => !(s = "")
  | .arr elems => !elems.isEmpty
  | .obj fields => !fields.isEmpty

/-- Python len() of a JSON value; TypeError on null, bool, number. -/
def pyLen : JVal → Except Unit Nat
  | .str s => .ok s.length
  | .arr elems => .ok elems.length
  | .obj fields => .ok fields.length
  | _ => .error ()

/-- The short-circuit conjunction of main.py line 97:
"result" in resp_result and "promotion_links" in resp_result["result"]. -/
def resultAndLinksCond (resp_result : JVal) : Except Unit Bool :=
  match pyContains resp_result "result" with
  | .error e => .error e
  | .ok false => .ok false
  | .ok true =>
    match pyGetKey resp_result "result" with
    | .error e => .error e
    | .ok r => pyContains r "promotion_links"

/-- The truthiness-and-length guard of main.py line 99:
promotion_links and len(promotion_links) > 0. -/
def linksNonEmptyCond (promotion_links : JVal) : Except Unit Bool :=
  if pyTruthy promotion_links then
    match pyLen promotion_links with
    | .error e => .error e
    | .ok n => .ok (decide (0 < n))
  else .ok false

/-- The body of the response parsing of main.py lines 91-103 over the
decoded JSON value: Except.error is an exception escaping the nested ifs
(later caught by the surrounding try/except), ok none is the fall-through
to "return None", ok (some v) is the returned promotion link value. -/
def parse_link_response (result : JVal) : Except Unit (Option JVal) :=
  match pyContains result "aliexpress_affiliate_link_generate_response" with
  | .error e => .error e
  | .ok false => .ok none
  | .ok true =>
    match pyGetKey result "aliexpress_affiliate_link_generate_response" with
    | .error e => .error e
    | .ok resp_data =>
      match pyContains resp_data "resp_result" with
      | .error e => .error e
      | .ok false => .ok none
      | .ok true =>
        match pyGetKey resp_data "resp_result" with
        | .error e => .error e
        | .ok resp_result =>
          match resultAndLinksCond resp_result with
          | .error e => .error e
          | .ok false => .ok none
          | .ok true =>
            match pyGetKey resp_result "result" with
            | .error e => .error e
            | .ok r =>
              match pyGetKey r "promotion_links" with
              | .error e => .error e
              | .ok promotion_links =>
                match linksNonEmptyCond promotion_links with
                | .error e => .error e
                | .ok false => .ok none
                | .ok true =>
                  match pyGetIdx0 promotion_links with
                  | .error e => .error e
                  | .ok first =>
                    match pyGetKey first "promotion_link" with
                    | .error e => .error e
                    | .ok pl => .ok (some pl)

/-- The whole network-and-parse section of get_affiliate_link (main.py
lines 87-107): the POST either raises (transport error, timeout, HTTP
error status, JSON decode failure), modelled by an error input, or yields
a decoded JSON value; the try/except converts every raised exception into
the returned None, and a fall-through of the nested ifs also returns None. -/
def get_affiliate_link_response (resp : Except Unit JVal) : Option JVal :=
  match resp with
  | .error _ => none
  | .ok result =>
    match parse_link_response result with
    | .error _ => none
    | .ok v => v

/-! ## Claim C3: defensive descent through the response envelope -/

/-- C3.  get_affiliate_link returns None on a raised transport error or
timeout; returns None whenever any key of the nested success envelope is
missing at any depth (the outer response key, resp_result, result,
promotion_links, or promotion_link inside the first list element); and the
surrounding try/except converts every exception raised during parsing into
None, so the caller never sees an exception. -/
theorem get_affiliate_link_not_found_on_missing :
    (∀ e, get_affiliate_link_response (.error e) = none)
    ∧ (∀ fields, jLookup fields "aliexpress_affiliate_link_generate_response" = none →
        get_affiliate_link_response (.ok (JVal.obj fields)) = none)
    ∧ (∀ fields inner,
        jLookup fields "aliexpress_affiliate_link_generate_response" = some (JVal.obj inner) →
        jLookup inner "resp_result" = none →
        get_affiliate_link_response (.ok (JVal.obj fields)) = none)
    ∧ (∀ fields inner rr,
        jLookup fields "aliexpress_affiliate_link_generate_response" = some (JVal.obj inner) →
        jLookup inner "resp_result" = some (JVal.obj rr) →
        jLookup rr "result" = none →
        get_affiliate_link_response (.ok (JVal.obj fields)) = none)
    ∧ (∀ fields inner rr rf,
        jLookup fields "aliexpress_affiliate_link_generate_response" = some (JVal.obj inner) →
        jLookup inner "resp_result" = some (JVal.obj rr) →
        jLookup rr "result" = some (JVal.obj rf) →
        jLookup rf "promotion_links" = none →
        get_affiliate_link_response (.ok (JVal.obj fields)) = none)
    ∧ (∀ fields inner rr rf g rest,
        jLookup fields "aliexpress_affiliate_link_generate_response" = some (JVal.obj inner) →
        jLookup inner "resp_result" = some (JVal.obj rr) →
        jLookup rr "result" = some (JVal.obj rf) →
        jLookup rf "promotion_links" = some (JVal.arr (JVal.obj g :: rest)) →
        jLookup g "promotion_link" = none →
        get_affiliate_link_response (.ok (JVal.obj fields)) = none)
    ∧ (∀ result e, parse_link_response result = .error e →
        get_affiliate_link_response (.ok result) = none) := by
  refine ⟨fun e => rfl, ?_, ?_, ?_, ?_, ?_, ?_⟩
  · intro fields h1
    simp [get_affiliate_link_response, parse_link_response, pyContains, h1]
  · intro fields inner h1 h2
    simp [get_affiliate_link_response, parse_link_response, pyContains, pyGetKey, h1, h2]
  · intro fields inner rr h1 h2 h3
    simp [get_affiliate_link_response, parse_link_response, resultAndLinksCond,
      pyContains, pyGetKey, h1, h2, h3]
  · intro fields inner rr rf h1 h2 h3 h4
    simp [get_affiliate_link_response, parse_link_response, resultAndLinksCond,
      pyContains, pyGetKey, h1, h2, h3, h4]
  · intro fields inner rr rf g rest h1 h2 h3 h4 h5
    simp [get_affiliate_link_response, parse_link_response, resultAndLinksCond,
      linksNonEmptyCond, pyTruthy, pyLen, pyGetIdx0, pyContains, pyGetKey,
      h1, h2, h3, h4, h5]
  · intro result e h
    simp [get_affiliate_link_response, h]

/-- Witness for C3: a transport failure, an empty top-level object, and a
complete envelope whose first promotion link lacks the promotion_link key
all collapse to None. -/
theorem get_affiliate_link_not_found_on_missing_witness :
    get_affiliate_link_response (.error ()) = none
    ∧ get_affiliate_link_response (.ok (JVal.obj [])) = none
    ∧ get_affiliate_link_response (.ok (JVal.obj
        [("aliexpress_affiliate_link_generate_response", JVal.obj
          [("resp_result", JVal.obj
            [("result", JVal.obj
              [("promotion_links", JVal.arr
                [JVal.obj [("source_value", JVal.str "x")]])])])])])) = none :=
  ⟨get_affiliate_link_not_found_on_missing.1 (),
   get_affiliate_link_not_found_on_missing.2.1 [] rfl,
   get_affiliate_link_not_found_on_missing.2.2.2.2.2.1
     _ _ _ _ [("source_value", JVal.str "x")] [] rfl rfl rfl rfl rfl⟩

/-! ## Coin-discount link synthesizer (main.py lines 165-195)

urllib.parse.urlparse and parse_qs are modelled to the depth the function
uses them: scheme stripping, netloc splitting with the unmatched-bracket
ValueError of urlsplit (raised by every CPython 3 version; the additional
bracketed-host validation of newer versions is not modelled, and the
claims are settled on bracket-free or unmatched-bracket inputs only),
fragment and query splitting, ampersand-separated pairs with blank values
dropped, and plus/percent decoding (multi-byte percent sequences are
decoded bytewise; the trace parameters of the claims are ASCII). -/

/-- Characters permitted in a URL scheme (CPython scheme_chars). -/
def isSchemeChar (c : Char) : Bool :=
  c.isAlpha || c.isDigit || c = '+' || c = '-' || c = '.'

/-- A valid scheme: nonempty, led by a letter, all scheme characters. -/
def schemeOk : List Char → Bool
  | [] => false
  | c :: rest => c.isAlpha && (c :: rest).all isSchemeChar

/-- Split at the first colon: the text before it and the text after it. -/
def splitAtColon : List Char → Option (List Char × List Char)
  | [] => none
  | c :: rest =>
    if c = ':' then some ([], rest)
    else
      match splitAtColon rest with
      | some (b, aft) => some (c :: b, aft)
      | none => none

/-- Strip a leading scheme: when the text before the first colon is a
valid scheme the remainder is kept, otherwise the input is unchanged. -/
def removeScheme (u : List Char) : List Char :=
  match splitAtColon u with
  | some (b, aft) => if schemeOk b then aft else u
  | none => u

/-- A character ending the netloc portion. -/
def notNetlocEnd (c : Char) : Bool := !(c = '/' || c = '?' || c = '#')

/-- The netloc of a scheme-stripped URL starting with two slashes. -/
def netlocOf (u1 : List Char) : List Char := (u1.drop 2).takeWhile notNetlocEnd

/-- The text following the netloc. -/
def afterNetloc (u1 : List Char) : List Char := (u1.drop 2).drop (netlocOf u1).length

/-- The unmatched-square-bracket test of CPython urlsplit: a bracket on
one side only raises ValueError Invalid IPv6 URL. -/
def bracketMismatch (n : List Char) : Bool :=
  decide ('[' ∈ n) != decide (']' ∈ n)

/-- The text after the first occurrence of a character, if any. -/
def afterChar (c : Char) : List Char → Option (List Char)
  | [] => none
  | x :: rest => if x = c then some rest else afterChar c rest

/-- The query component: drop the fragment (everything from the first
hash) and keep what follows the first question mark. -/
def queryOf (rest : List Char) : List Char :=
  match afterChar '?' (rest.takeWhile (fun c => !(c = '#'))) with
  | some q => q
  | none => []

/-- urlparse(u).query: scheme stripped, netloc split off after two slashes
(with the unmatched-bracket ValueError), then fragment and query split. -/
def urlsplit_query (u : String) : Except Unit String :=
  if ("//".data).isPrefixOf (removeScheme u.data) then
    if bracketMismatch (netlocOf (removeScheme u.data)) then .error ()
    else .ok (String.mk (queryOf (afterNetloc (removeScheme u.data))))
  else .ok (String.mk (queryOf (removeScheme u.data)))

/-- name_value.split('=', 1): the text before and after the first '='. -/
def splitFirstEq : List Char → Option (List Char × List Char)
  | [] => none
  | c :: rest =>
    if c = '=' then some ([], rest)
    else
      match splitFirstEq rest with
      | some (n, v) => some (c :: n, v)
      | none => none

def isHexDigitChar (c : Char) : Bool :=
  c.isDigit || ('a' ≤ c && c ≤ 'f') || ('A' ≤ c && c ≤ 'F')

def hexCharVal (c : Char) : Nat :=
  if c.isDigit then c.toNat - 48 else if 'a' ≤ c then c.toNat - 87 else c.toNat - 55

/-- urllib.parse.unquote_plus: plus becomes space, percent followed by two
hex digits becomes the coded byte, anything else is kept. -/
def unquote_plus : List Char → List Char
  | [] => []
  | '+' :: rest => ' ' :: unquote_plus rest
  | '%' :: a :: b :: rest =>
    if isHexDigitChar a && isHexDigitChar b then
      Char.ofNat (16 * hexCharVal a + hexCharVal b) :: unquote_plus rest
    else '%' :: unquote_plus (a :: b :: rest)
  | c :: rest => c :: unquote_plus rest

/-- parse_qsl with default options: split the query on ampersands, skip
empty chunks, skip chunks without '=', skip blank values
(keep_blank_values is False), and unquote names and values. -/
def parse_qsl (q : List Char) : List (String × String) :=
  (q.splitOn '&').filterMap (fun chunk =>
    if chunk.isEmpty then none
    else
      match splitFirstEq chunk with
      | none => none
      | some (n, v) =>
        if v.isEmpty then none
        else some (String.mk (unquote_plus n), String.mk (unquote_plus v)))

/-- query_params.get(key, [''])[0] over parse_qs(query): the first value
recorded for the key, or the empty string (main.py lines 175-178). -/
def qs_get (q key : String) : String :=
  match (parse_qsl q.data).find? (fun p => p.1 == key) with
  | some p => p.2
  | none => ""

/-- The coin discount URL template of main.py lines 181-193. -/
def coin_template (pid fcid fsk trace tid : String) : String :=
  "https://m.aliexpress.com/p/coin-index/index.html?_immersiveMode=true&from=syicon&productIds="
    ++ pid ++ "&aff_fcid=" ++ fcid ++ "&tt=CPS_NORMAL&aff_fsk=" ++ fsk
    ++ "&aff_platform=portals-tool&sk=" ++ fsk ++ "&aff_trace_key=" ++ trace
    ++ "&terminal_id=" ++ tid

/-- create_coin_discount_link (main.py lines 165-195).  A missing (None)
or empty argument is falsy and yields ok None; otherwise the affiliate
link is parsed — with no try/except in the function, a ValueError raised
by urlparse escapes to the caller, modelled by the error outcome — and
the coin URL is assembled from the four extracted trace parameters. -/
def create_coin_discount_link (affiliate_link product_id : Option String) :
    Except Unit (Option String) :=
  match affiliate_link, product_id with
  | some a, some p =>
    if a = "" || p = "" then .ok none
    else
      match urlsplit_query a with
      | .error e => .error e
      | .ok q =>
        .ok (some (coin_template p (qs_get q "aff_fcid") (qs_get q "aff_fsk")
          (qs_get q "aff_trace_key") (qs_get q "terminal_id")))
  | _, _ => .ok none

/-- RFC 3986 characters acceptable in a URL. -/
def urlAllowedChar (c : Char) : Bool :=
  c.isAlphanum || c = '-' || c = '.' || c = '_' || c = '~' || c = ':' || c = '/' ||
    c = '?' || c = '#' || c = '@' || c = '!' || c = '$' || c = '&' ||
    c = Char.ofNat 39 || c = '(' || c = ')' || c = '*' || c = '+' || c = ',' ||
    c = ';' || c = '=' || c = '%' || c = '[' || c = ']'

/-- A syntactically acceptable https URL: the https scheme in front and
every character URL-allowed. -/
def validUrlB (s : String) : Bool :=
  ("https://".data).isPrefixOf s.data && s.data.all urlAllowedChar

/-! ## Claims C5 and C8: the synthesizer -/

/-- The character data of the coin URL, right-associated. -/
theorem coin_template_data (pid fcid fsk trace tid : String) :
    (coin_template pid fcid fsk trace tid).data =
      "https://m.aliexpress.com/p/coin-index/index.html?_immersiveMode=true&from=syicon&productIds=".data
      ++ (pid.data ++ ("&aff_fcid=".data ++ (fcid.data ++ ("&tt=CPS_NORMAL&aff_fsk=".data
      ++ (fsk.data ++ ("&aff_platform=portals-tool&sk=".data ++ (fsk.data
      ++ ("&aff_trace_key=".data ++ (trace.data ++ ("&terminal_id=".data ++ tid.data)))))))))) := by
  simp only [coin_template, String.data_append, List.append_assoc]

theorem seg_between {α : Type} (seg x pre suf pre2 : List α) (hpre : pre = pre2 ++ seg) :
    (seg ++ x) <:+: (pre ++ (x ++ suf)) :=
  ⟨pre2, suf, by rw [hpre]; simp [List.append_assoc]⟩

theorem seg_last {α : Type} (seg x pre pre2 : List α) (hpre : pre = pre2 ++ seg) :
    (seg ++ x) <:+: (pre ++ x) :=
  ⟨pre2, [], by rw [hpre]; simp [List.append_assoc]⟩

theorem within_append {α : Type} {x m : List α} (l : List α) (h : x <:+: m) :
    x <:+: l ++ m := by
  obtain ⟨s, t, hh⟩ := h
  exact ⟨l ++ s, t, by rw [← hh]; simp [List.append_assoc]⟩

/-- Counterexample to C5 as stated: both arguments present and non-empty,
yet no URL is returned — parsing the affiliate link raises (unmatched
square bracket in the authority), and the exception escapes. -/
theorem create_coin_discount_link_not_total :
    create_coin_discount_link (some "https://]x") (some "1005004633663909") = .error () := rfl

/-- C5 as amended.  A missing or empty argument yields None; when both
arguments are present and parsing the affiliate link raises no exception,
the result is exactly the fixed coin-index template carrying the product
id and the four extracted trace values; the template textually contains
productIds= followed by the id and each trace parameter name with its
value; and the template is a syntactically valid https URL whenever the id
and the four values consist of URL-allowed characters — in particular when
the four parameters are absent (empty values) and the id is numeric. -/
theorem create_coin_discount_link_spec :
    (∀ p, create_coin_discount_link none p = .ok none)
    ∧ (∀ a, create_coin_discount_link a none = .ok none)
    ∧ (∀ p, create_coin_discount_link (some "") p = .ok none)
    ∧ (∀ a, create_coin_discount_link (some a) (some "") = .ok none)
    ∧ (∀ a p q, a ≠ "" → p ≠ "" → urlsplit_query a = .ok q →
        create_coin_discount_link (some a) (some p) =
          .ok (some (coin_template p (qs_get q "aff_fcid") (qs_get q "aff_fsk")
            (qs_get q "aff_trace_key") (qs_get q "terminal_id"))))
    ∧ (∀ pid fcid fsk trace tid,
        ("productIds=" ++ pid).data <:+: (coin_template pid fcid fsk trace tid).data
        ∧ ("aff_fcid=" ++ fcid).data <:+: (coin_template pid fcid fsk trace tid).data
        ∧ ("aff_fsk=" ++ fsk).data <:+: (coin_template pid fcid fsk trace tid).data
        ∧ ("aff_trace_key=" ++ trace).data <:+: (coin_template pid fcid fsk trace tid).data
        ∧ ("terminal_id=" ++ tid).data <:+: (coin_template pid fcid fsk trace tid).data)
    ∧ (∀ pid fcid fsk trace tid,
        pid.data.all urlAllowedChar = true → fcid.data.all urlAllowedChar = true →
        fsk.data.all urlAllowedChar = true → trace.data.all urlAllowedChar = true →
        tid.data.all urlAllowedChar = true →
        validUrlB (coin_template pid fcid fsk trace tid) = true) := by
  refine ⟨?_, ?_, ?_, ?_, ?_, ?_, ?_⟩
  · intro p; cases p <;> rfl
  · intro a; cases a <;> rfl
  · intro p; cases p <;> rfl
  · intro a; simp [create_coin_discount_link]
  · intro a p q hne hpe hq
    simp [create_coin_discount_link, hne, hpe, hq]
  · intro pid fcid fsk trace tid
    refine ⟨?_, ?_, ?_, ?_, ?_⟩
    · rw [String.data_append, coin_template_data]
      exact seg_between _ _ _ _
        ("https://m.aliexpress.com/p/coin-index/index.html?_immersiveMode=true&from=syicon&".data)
        (by decide)
    · rw [String.data_append, coin_template_data]
      exact within_append _ (within_append _ (seg_between _ _ _ _ ("&".data) (by decide)))
    · rw [String.data_append, coin_template_data]
      exact within_append _ (within_append _ (within_append _ (within_append _
        (seg_between _ _ _ _ ("&tt=CPS_NORMAL&".data) (by decide)))))
    · rw [String.data_append, coin_template_data]
      exact within_append _ (within_append _ (within_append _ (within_append _
        (within_append _ (within_append _ (within_append _ (within_append _
          (seg_between _ _ _ _ ("&".data) (by decide)))))))))
    · rw [String.data_append, coin_template_data]
      exact within_append _ (within_append _ (within_append _ (within_append _
        (within_append _ (within_append _ (within_append _ (within_append _
          (within_append _ (within_append _
            (seg_last _ _ _ ("&".data) (by decide)))))))))))
  · intro pid fcid fsk trace tid h1 h2 h3 h4 h5
    unfold validUrlB
    rw [Bool.and_eq_true]
    constructor
    · rw [ List.isPrefixOf_iff_prefix, coin_template_data]
      exact List.IsPrefix.trans (by decide) ( List.prefix_append _ _)
    · rw [coin_template_data]
      simp only [List.all_append, h1, h2, h3, h4, h5, Bool.and_true, Bool.true_and]
      decide

/-- Witness for the amended C5 at a concrete affiliate link carrying the
four trace parameters, and the validity clause with the four parameters
absent. -/
theorem create_coin_discount_link_spec_witness :
    create_coin_discount_link
        (some "https://s.click.aliexpress.com/e/x?aff_fcid=F1&aff_fsk=K1&aff_trace_key=T1&terminal_id=D1")
        (some "1005004633663909") =
      .ok (some (coin_template "1005004633663909"
        (qs_get "aff_fcid=F1&aff_fsk=K1&aff_trace_key=T1&terminal_id=D1" "aff_fcid")
        (qs_get "aff_fcid=F1&aff_fsk=K1&aff_trace_key=T1&terminal_id=D1" "aff_fsk")
        (qs_get "aff_fcid=F1&aff_fsk=K1&aff_trace_key=T1&terminal_id=D1" "aff_trace_key")
        (qs_get "aff_fcid=F1&aff_fsk=K1&aff_trace_key=T1&terminal_id=D1" "terminal_id")))
    ∧ validUrlB (coin_template "1005004633663909" "" "" "" "") = true :=
  ⟨create_coin_discount_link_spec.2.2.2.2.1 _ _ _ (by decide) (by decide) rfl,
   create_coin_discount_link_spec.2.2.2.2.2.2 _ _ _ _ _
     (by decide) (by decide) (by decide) (by decide) (by decide)⟩

/-- Counterexample to C8 as stated: a parse exception is not caught and
converted to None — it escapes create_coin_discount_link. -/
theorem create_coin_discount_link_propagates :
    create_coin_discount_link (some "http://[") (some "1005004633663909") = .error () := rfl

theorem splitAtColon_suffix : ∀ {l b aft : List Char},
    splitAtColon l = some (b, aft) → aft <:+ l := by
  intro l
  induction l with
  | nil => intro b aft h; simp [splitAtColon] at h
  | cons c rest ih =>
    intro b aft h
    simp only [splitAtColon] at h
    split at h
    · obtain ⟨-, h2⟩ := Prod.mk.injEq .. ▸ Option.some.inj h
      exact h2 ▸ List.suffix_cons_iff.mpr (Or.inr (List.suffix_refl _))
    · cases hs : splitAtColon rest with
      | some p =>
        rw [hs] at h
        obtain ⟨b2, aft2⟩ := p
        obtain ⟨-, h2⟩ := Prod.mk.injEq .. ▸ Option.some.inj h
        exact List.suffix_cons_iff.mpr (Or.inr (h2 ▸ ih hs))
      | none => rw [hs] at h; simp at h

theorem removeScheme_mem {l : List Char} {c : Char} (h : c ∈ removeScheme l) : c ∈ l := by
  unfold removeScheme at h
  cases hs : splitAtColon l with
  | none => rw [hs] at h; exact h
  | some p =>
    obtain ⟨b, aft⟩ := p
    simp only [removeScheme, hs] at h
    split at h
    · exact (splitAtColon_suffix hs).subset h
    · exact h

theorem netlocOf_mem {u1 : List Char} {c : Char} (h : c ∈ netlocOf u1) : c ∈ u1 := by
  unfold netlocOf at h
  exact List.mem_of_mem_drop (( List.takeWhile_prefix _).subset h)

/-- The affiliate link query parse raises nothing when the link carries no
square bracket. -/
theorem urlsplit_query_ok_of_no_brackets (a : String)
    (h1 : '[' ∈ a.data → False) (h2 : ']' ∈ a.data → False) :
    ∃ q, urlsplit_query a = .ok q := by
  unfold urlsplit_query
  split
  · rw [if_neg]
    · exact ⟨_, rfl⟩
    · have e1 : decide ('[' ∈ netlocOf (removeScheme a.data)) = false :=
        decide_eq_false (fun hm => h1 (removeScheme_mem (netlocOf_mem hm)))
      have e2 : decide (']' ∈ netlocOf (removeScheme a.data)) = false :=
        decide_eq_false (fun hm => h2 (removeScheme_mem (netlocOf_mem hm)))
      simp [bracketMismatch, e1, e2]
  · exact ⟨_, rfl⟩

/-- C8 as amended.  create_coin_discount_link performs no exception
handling of its own: the only exception it can raise is the urlparse
ValueError, which propagates unchanged to the caller (the message handler
catches it at top level); conversely, for every pair of arguments whose
affiliate link contains no square bracket, no exception arises and the
call returns normally. -/
theorem create_coin_discount_link_no_local_catch :
    (∀ a p, ('[' ∈ a.data → False) → (']' ∈ a.data → False) →
        ∃ r, create_coin_discount_link (some a) p = .ok r)
    ∧ (∀ a p e, create_coin_discount_link a p = .error e →
        ∃ s p2, a = some s ∧ p = some p2 ∧ s ≠ "" ∧ p2 ≠ "" ∧
          urlsplit_query s = .error e) := by
  constructor
  · intro a p h1 h2
    cases p with
    | none => exact ⟨none, rfl⟩
    | some p2 =>
      by_cases hae : a = ""
      · exact ⟨none, by simp [create_coin_discount_link, hae]⟩
      · by_cases hpe : p2 = ""
        · exact ⟨none, by simp [create_coin_discount_link, hpe]⟩
        · obtain ⟨q, hq⟩ := urlsplit_query_ok_of_no_brackets a h1 h2
          exact ⟨some (coin_template p2 (qs_get q "aff_fcid") (qs_get q "aff_fsk")
              (qs_get q "aff_trace_key") (qs_get q "terminal_id")),
            by simp [create_coin_discount_link, hae, hpe, hq]⟩
  · intro a p e h
    cases a with
    | none => simp [create_coin_discount_link] at h
    | some s =>
      cases p with
      | none => simp [create_coin_discount_link] at h
      | some p2 =>
        by_cases hae : s = ""
        · simp [create_coin_discount_link, hae] at h
        · by_cases hpe : p2 = ""
          · simp [create_coin_discount_link, hpe] at h
          · cases hq : urlsplit_query s with
            | ok q => simp [create_coin_discount_link, hae, hpe, hq] at h
            | error e2 =>
              refine ⟨s, p2, rfl, rfl, hae, hpe, ?_⟩
              rw [hq]

/-- Witness for the amended C8: a bracket-free affiliate link returns
normally, and the raised-exception case is exactly a urlparse failure. -/
theorem create_coin_discount_link_no_local_catch_witness :
    (∃ r, create_coin_discount_link (some "https://aliexpress.com/e?aff_fcid=1")
        (some "123") = .ok r)
    ∧ (∃ s p2, (some "http://[" : Option String) = some s ∧
        (some "1005004633663909" : Option String) = some p2 ∧ s ≠ "" ∧ p2 ≠ "" ∧
        urlsplit_query s = .error ()) :=
  ⟨create_coin_discount_link_no_local_catch.1 _ (some "123") (by decide) (by decide),
   create_coin_discount_link_no_local_catch.2 (some "http://[") (some "1005004633663909") () rfl⟩

/-! ## Claim C9: resolution attempts per pipeline invocation -/

/-- The arguments passed to resolve_short_url during one invocation of
TelegramBot.handle_message on the found URL, in call order: the handler
calls extract_product_id(found_url) (main.py line 326), whose first step
resolves its argument (line 124); on success it calls
get_affiliate_link(found_url) (line 337), which resolves the URL again
(line 57) and then calls extract_product_id on the resolved URL (line 60),
which resolves that value once more (line 124).  A URL already containing
coin-index is answered early without any resolution (line 311). -/
def handle_message_resolution_args (net : String → Except Unit String)
    (found_url : String) : List String :=
  if strContains found_url "coin-index" then []
  else
    found_url ::
      (match extract_product_id net found_url with
       | none => []
       | some _ => [found_url, resolve_short_url net found_url])

/-- The number of redirect-following network requests issued for the
candidate URL itself during one invocation: a resolve_short_url call
issues a request exactly when its argument carries a short-link marker. -/
def candidate_redirect_requests (net : String → Except Unit String)
    (found_url : String) : Nat :=
  ((handle_message_resolution_args net found_url).filter
    (fun a => decide (a = found_url) && has_short_marker a)).length

/-- C9 fails on the code: for a short affiliate link that resolves to a
product page, one handle_message invocation issues two redirect
resolutions of the same candidate — one inside the handler's product-id
extraction, a second inside the affiliate-link client. -/
theorem candidate_resolved_twice :
    candidate_redirect_requests
      (fun _ => .ok "https://www.aliexpress.com/item/1005004633663909.html")
      "https://s.click.aliexpress.com/e/_abc" = 2 := by decide

/-! ## Claim C10: null parameter values are not excluded from the signed string -/

/-- Counterexample to C10: a parameter with a null value is not excluded
from the string that is signed; its key enters the signed string followed
by the literal None. -/
theorem null_value_enters_signed_string :
    query_string [("a", PyVal.null)] "m" "s" = "maNones"
    ∧ strContains (query_string [("a", PyVal.null)] "m" "s") "aNone" = true := by
  have hq : query_string [("a", PyVal.null)] "m" "s" = "maNones" := by
    unfold query_string sortedPairs
    rw [List.mergeSort_singleton]
    decide
  exact ⟨hq, by rw [hq]; decide⟩

theorem within_append_right {α : Type} {x m : List α} (l : List α) (h : x <:+: m) :
    x <:+: m ++ l := by
  obtain ⟨s, t, hh⟩ := h
  exact ⟨s, t ++ l, by rw [← hh]; simp [List.append_assoc]⟩

theorem mem_concatPairs {p : String × PyVal} :
    ∀ {l : List (String × PyVal)}, p ∈ l →
    (p.1 ++ pyRepr p.2).data <:+: (concatPairs l).data := by
  intro l
  induction l with
  | nil => intro h; simp at h
  | cons q t ih =>
    intro h
    have hdata : (concatPairs (q :: t)).data =
        (q.1 ++ pyRepr q.2).data ++ (concatPairs t).data := by
      simp [concatPairs, String.data_append]
    rcases List.mem_cons.mp h with he | he
    · rw [hdata, he]
      exact ⟨[], (concatPairs t).data, by simp⟩
    · rw [hdata]
      exact within_append _ (ih he)

/-- C10 as amended: generate_signature performs no exclusion — every
parameter of the mapping enters the concatenated string that is signed as
its key immediately followed by the f-string rendering of its value, and a
null value renders as the literal None. -/
theorem query_string_includes_every_pair (params : List (String × PyVal))
    (api_name secret k : String) (v : PyVal) (h : (k, v) ∈ params) :
    (k ++ pyRepr v).data <:+: (query_string params api_name secret).data := by
  have hq : query_string params api_name secret =
      (api_name ++ concatPairs (sortedPairs params)) ++ secret := by
    unfold query_string
    rw [foldl_append_concatPairs]
  have hmem : (k, v) ∈ sortedPairs params :=
    ((List.mergeSort_perm params _).mem_iff).mpr h
  have hinf := mem_concatPairs (p := (k, v)) hmem
  rw [hq, String.data_append, String.data_append]
  exact within_append_right _ (within_append _ hinf)

/-- Witness for the amended C10: a null tracking id enters the signed
string as the key followed by the literal None. -/
theorem query_string_includes_every_pair_witness :
    ("tracking_id" ++ pyRepr PyVal.null).data <:+:
      (query_string [("tracking_id", PyVal.null)] "m" "s").data :=
  query_string_includes_every_pair _ _ _ _ _ (List.mem_singleton.mpr rfl)
